import Mathlib

/-!
# Verification of the Task-Management-System core

Shallow embedding of the validation, date-parsing, record-conversion and
store-orchestration logic of `src/task.py` and `src/database.py`, together
with proofs settling the spec claims about it.

Conventions:
* Python strings become Lean `String`; `str.strip`, `str.lower`,
  `str.capitalize` are modelled character-wise (the inputs here are ASCII).
* `datetime` objects become the `DateTime` structure below (microseconds are
  omitted: no input shape accepted by the embedded parser produces one, and
  the code's `replace(microsecond=0)` branch is unreachable).
* Exceptions become `Except Err`; the error kinds follow the taxonomy the
  code realises through distinct `ValueError` messages.
-/

namespace TaskMgmt

/-- A calendar timestamp, modelling Python `datetime` to second precision. -/
structure DateTime where
  year : Nat
  month : Nat
  day : Nat
  hour : Nat
  minute : Nat
  second : Nat
deriving DecidableEq, Repr

/-- Lexicographic `<` on timestamps, modelling `datetime.__lt__`. -/
def DateTime.ltb (a b : DateTime) : Bool :=
  if a.year ≠ b.year then a.year < b.year
  else if a.month ≠ b.month then a.month < b.month
  else if a.day ≠ b.day then a.day < b.day
  else if a.hour ≠ b.hour then a.hour < b.hour
  else if a.minute ≠ b.minute then a.minute < b.minute
  else a.second < b.second

/-- Model of Python `str.strip()`: drop leading and trailing whitespace. -/
def pyStrip (s : String) : String :=
  String.mk (((s.data.dropWhile Char.isWhitespace).reverse.dropWhile
    Char.isWhitespace).reverse)

/-- Model of Python `str.lower()` on ASCII text: lower-case each character. -/
def pyLower (s : String) : String :=
  String.mk (s.data.map Char.toLower)

/-- Model of Python `str.capitalize()` on ASCII text: upper-case the first
character, lower-case the rest. -/
def pyCapitalize (s : String) : String :=
  match s.data with
  | [] => ""
  | c :: rest => String.mk (c.toUpper :: rest.map Char.toLower)

/-- Error kinds, one per distinct failure the code signals (each is a
distinct `ValueError` message in the source; the payload is that message
where a claim depends on it). -/
inductive Err where
  | invalidField (msg : String)
  | invalidEnum (msg : String)
  | invalidDateFormat
  | pastDate
  | invalidIdFormat
deriving DecidableEq, Repr

instance {ε α : Type} [DecidableEq ε] [DecidableEq α] :
    DecidableEq (Except ε α) := fun a b =>
  match a, b with
  | .ok x, .ok y =>
    match decEq x y with
    | .isTrue h => .isTrue (by rw [h])
    | .isFalse h => .isFalse (by intro hc; cases hc; exact h rfl)
  | .error x, .error y =>
    match decEq x y with
    | .isTrue h => .isTrue (by rw [h])
    | .isFalse h => .isFalse (by intro hc; cases hc; exact h rfl)
  | .ok _, .error _ => .isFalse (by intro hc; cases hc)
  | .error _, .ok _ => .isFalse (by intro hc; cases hc)

/-- Embedding of `Task.PRIORITY_LEVELS` from `src/task.py`. -/
def PRIORITY_LEVELS : List String := ["Low", "Medium", "High"]

/-- Embedding of `Task.STATUS_OPTIONS` from `src/task.py`. -/
def STATUS_OPTIONS : List String := ["Pending", "In Progress", "Completed"]

/-- Embedding of `Task._validate_title` from `src/task.py`: strip; reject empty or longer
than 100 characters; return the stripped value. -/
def validate_title (title : String) : Except Err String :=
  let title := pyStrip title
  if title.isEmpty then .error (.invalidField "Title cannot be empty")
  else if title.length > 100 then
    .error (.invalidField "Title cannot be longer than 100 characters")
  else .ok title

/-- Embedding of `Task._validate_description` from `src/task.py`: strip; reject empty or
longer than 1000 characters; return the stripped value. -/
def validate_description (description : String) : Except Err String :=
  let description := pyStrip description
  if description.isEmpty then .error (.invalidField "Description cannot be empty")
  else if description.length > 1000 then
    .error (.invalidField "Description cannot be longer than 1000 characters")
  else .ok description

/-- Embedding of `Task._validate_priority` from `src/task.py`: strip and capitalize, then
require membership in `PRIORITY_LEVELS`. -/
def validate_priority (priority : String) : Except Err String :=
  let priority := pyCapitalize (pyStrip priority)
  if priority ∈ PRIORITY_LEVELS then .ok priority
  else .error (.invalidEnum ("Priority must be one of: " ++
    String.intercalate ", " PRIORITY_LEVELS))

/-- Embedding of `Task._validate_status` from `src/task.py`: strip; if the lower-cased
value is the literal `"in progress"` return the canonical `"In Progress"`;
otherwise capitalize and require membership in `STATUS_OPTIONS`. -/
def validate_status (status : String) : Except Err String :=
  let status := pyStrip status
  if pyLower status = "in progress" then .ok "In Progress"
  else
    let status := pyCapitalize status
    if status ∈ STATUS_OPTIONS then .ok status
    else .error (.invalidEnum ("Status must be one of: " ++
      String.intercalate ", " STATUS_OPTIONS))

/-! ## Date parsing -/

/-- Split a character list into its leading run of decimal digits and the
remainder. -/
def splitNum (l : List Char) : List Char × List Char :=
  (l.takeWhile Char.isDigit, l.dropWhile Char.isDigit)

/-- Numeric value of a list of decimal digit characters. -/
def digitsVal (l : List Char) : Nat :=
  l.foldl (fun a c => a * 10 + (c.toNat - 48)) 0

/-- Parse a leading `YYYY-MM-DD` prefix, returning the three numbers and the
rest of the input. -/
def parseYMD (l : List Char) : Option (Nat × Nat × Nat × List Char) :=
  let (ys, r1) := splitNum l
  if ys.isEmpty then none else
  match r1 with
  | '-' :: r2 =>
    let (ms, r3) := splitNum r2
    if ms.isEmpty then none else
    match r3 with
    | '-' :: r4 =>
      let (ds, r5) := splitNum r4
      if ds.isEmpty then none
      else some (digitsVal ys, digitsVal ms, digitsVal ds, r5)
    | _ => none
  | _ => none

/-- Parse a complete `HH:MM` or `HH:MM:SS` time; a missing seconds field
reads as `0`. -/
def parseHMS (l : List Char) : Option (Nat × Nat × Nat) :=
  let (hs, r1) := splitNum l
  if hs.isEmpty then none else
  match r1 with
  | ':' :: r2 =>
    let (ms, r3) := splitNum r2
    if ms.isEmpty then none else
    match r3 with
    | [] => some (digitsVal hs, digitsVal ms, 0)
    | ':' :: r4 =>
      let (ss, r5) := splitNum r4
      if ss.isEmpty then none
      else if r5.isEmpty then some (digitsVal hs, digitsVal ms, digitsVal ss)
      else none
    | _ => none
  | _ => none

/-- Length of a month, with Gregorian leap years. -/
def daysInMonth (y m : Nat) : Nat :=
  if m = 2 then (if y % 4 = 0 && (y % 100 ≠ 0 || y % 400 = 0) then 29 else 28)
  else if m = 4 || m = 6 || m = 9 || m = 11 then 30
  else 31

/-- Calendar validity of a year-month-day triple (Python `datetime` bounds:
years 1–9999, real month lengths). -/
def validYMD (y m d : Nat) : Bool :=
  1 ≤ y && y ≤ 9999 && 1 ≤ m && m ≤ 12 && 1 ≤ d && d ≤ daysInMonth y m

/-- Validity of a time-of-day triple. -/
def validHMS (h mi s : Nat) : Bool :=
  h < 24 && mi < 60 && s < 60

/-- Model of `dateutil.parser.parse` restricted to the input shapes the
repository documents and prompts for: `YYYY-MM-DD`, `YYYY-MM-DD HH:MM` and
`YYYY-MM-DD HH:MM:SS`. When the time component is absent, `dateutil` fills
the unspecified time fields with zero, so a bare date parses to midnight of
that day. Out-of-range components fail (Python `datetime` rejects them). -/
def dateutilParse (s : String) : Option DateTime :=
  match parseYMD s.data with
  | none => none
  | some (y, m, d, rest) =>
    if validYMD y m d then
      match rest with
      | [] => some ⟨y, m, d, 0, 0, 0⟩
      | ' ' :: tl =>
        match parseHMS tl with
        | none => none
        | some (h, mi, sec) =>
          if validHMS h mi sec then some ⟨y, m, d, h, mi, sec⟩ else none
      | _ => none
    else none

/-- Embedding of `Task._parse_date` from `src/task.py`. The source wraps
`parser.parse(date_str)` in a nested `try`: the `except` branch that would
replace a missing time-of-day with 23:59:59 re-parses the *same* string, so
it can only run when parsing already failed and never produces a value —
the returned timestamp is always the plain `dateutil` parse. When
`validate_past` is set, a parsed timestamp strictly before `now`
(`datetime.now()` in the source) is rejected. -/
def parse_date (date_str : String) (validate_past : Bool) (now : DateTime) :
    Except Err DateTime :=
  match dateutilParse date_str with
  | none => .error .invalidDateFormat
  | some d =>
    if validate_past && DateTime.ltb d now then .error .pastDate
    else .ok d

example : dateutilParse "2024-01-01" = some ⟨2024, 1, 1, 0, 0, 0⟩ := by decide
example : dateutilParse "2024-01-01 09:00" = some ⟨2024, 1, 1, 9, 0, 0⟩ := by decide
example : dateutilParse "2024-02-30" = none := by decide
example : dateutilParse "2024-01-01 09:00:30" = some ⟨2024, 1, 1, 9, 0, 30⟩ := by decide

/-! ## Formatting -/

/-- The decimal digit character for `n % 10`. -/
def digitChar (n : Nat) : Char := Char.ofNat (48 + n % 10)

/-- Two zero-padded decimal digits, modelling `strftime` `%m`/`%d`/`%H`/`%M`
on their in-range values (< 100). -/
def pad2 (n : Nat) : List Char := [digitChar (n / 10), digitChar n]

/-- Four zero-padded decimal digits, modelling `strftime` `%Y` on Python
`datetime` years (1–9999). -/
def pad4 (n : Nat) : List Char :=
  [digitChar (n / 1000), digitChar (n / 100), digitChar (n / 10), digitChar n]

/-- Model of `dt.strftime("%Y-%m-%d %H:%M")` as used by `Task.from_dict`: minute
precision, seconds are not emitted. -/
def formatMinute (d : DateTime) : String :=
  String.mk (pad4 d.year ++ '-' :: pad2 d.month ++ '-' :: pad2 d.day ++
    ' ' :: pad2 d.hour ++ ':' :: pad2 d.minute)

example : formatMinute ⟨2024, 1, 1, 9, 0, 30⟩ = "2024-01-01 09:00" := by decide

/-! ## Task entity and records -/

/-- The `Task` entity of `src/task.py` after construction: all five
validated fields plus the optional store identifier and the creation
timestamp. -/
structure Task where
  id : Option String
  title : String
  description : String
  due_date : DateTime
  priority : String
  status : String
  creation_timestamp : DateTime
deriving DecidableEq, Repr

/-- A due-date value as found in a store record: `Task.to_dict` writes a
`datetime`, while `Database.update_task` `$set`s whatever raw value the
update payload carried (a string); `Task.from_dict` accepts both. -/
inductive DbDate where
  | dt (d : DateTime)
  | str (s : String)
deriving DecidableEq, Repr

/-- The flat record shape exchanged with the persistence layer (the
dictionary built by `Task.to_dict`). `id = none` models an absent `_id`
key. -/
structure TaskRecord where
  id : Option String
  title : String
  description : String
  due_date : DbDate
  priority : String
  status : String
  creation_timestamp : DateTime
deriving DecidableEq, Repr

/-- Embedding of `Task.__init__` from `src/task.py`: validate title, description,
due-date (against `now` when `validate_past` is set), priority and status,
in source order; the first failure aborts construction. `nowUtc` models
`datetime.utcnow()` assigned to `creation_timestamp`. -/
def taskInit (title description due_date priority : String)
    (status : String) (task_id : Option String) (validate_past : Bool)
    (now nowUtc : DateTime) : Except Err Task := do
  let t ← validate_title title
  let desc ← validate_description description
  let dd ← parse_date due_date validate_past now
  let p ← validate_priority priority
  let st ← validate_status status
  return ⟨task_id, t, desc, dd, p, st, nowUtc⟩

/-- Embedding of `Task.to_dict` from `src/task.py`: the field-for-field record form; the
due date is stored as a `datetime` value. -/
def to_dict (t : Task) : TaskRecord :=
  ⟨t.id, t.title, t.description, .dt t.due_date, t.priority, t.status,
    t.creation_timestamp⟩

/-- Embedding of `Task.from_dict` from `src/task.py`: re-run the constructor on the
record's fields with past-date validation off — a `datetime` due date is
first rendered with `strftime("%Y-%m-%d %H:%M")`, a string one is used
as-is — then overwrite `creation_timestamp` with the stored one. -/
def from_dict (r : TaskRecord) (now nowUtc : DateTime) : Except Err Task := do
  let dstr := match r.due_date with
    | .dt d => formatMinute d
    | .str s => s
  let task ← taskInit r.title r.description dstr r.priority r.status
    r.id false now nowUtc
  return { task with creation_timestamp := r.creation_timestamp }

/-! ## Store and manager -/

/-- Model of `bson.ObjectId(task_id)` on a string argument: a 24-character
hexadecimal string is accepted (bson normalises it to its byte value, here
represented by the lower-cased hex form); anything else raises, which the
manager re-raises as its "Invalid task ID format" error. -/
def parseObjectId (s : String) : Except Err String :=
  if s.length = 24 && s.data.all (fun c => c.isDigit ||
      ('a' ≤ c && c ≤ 'f') || ('A' ≤ c && c ≤ 'F')) then
    .ok (pyLower s)
  else .error .invalidIdFormat

/-- The tasks collection: documents keyed by their ObjectId. -/
structure DB where
  docs : List (String × TaskRecord)
deriving DecidableEq, Repr

/-- A partial update payload for `update_task` (the string-keyed dictionary
of `src/main.py`, one optional entry per field; the due date travels as the
raw user string). -/
structure UpdateData where
  title : Option String := none
  description : Option String := none
  due_date : Option String := none
  priority : Option String := none
  status : Option String := none
deriving DecidableEq, Repr

/-- The `task_data` dictionary handed to `TaskManager.create_task`
(`status` may be absent; `create_task` defaults it to `"Pending"`). -/
structure CreateData where
  title : String
  description : String
  due_date : String
  priority : String
  status : Option String := none
deriving DecidableEq, Repr

namespace Database

/-- Embedding of `Database.add_task` from `src/database.py`: overwrite
`creation_timestamp` with the server clock and insert; the store assigns
the fresh id `newOid`. -/
def add_task (db : DB) (record : TaskRecord) (nowUtc : DateTime)
    (newOid : String) : String × DB :=
  let record := { record with creation_timestamp := nowUtc }
  (newOid, ⟨db.docs ++ [(newOid, record)]⟩)

/-- Application of the `$set` of the present fields of an update payload onto a document; the
raw due-date string is written as-is. -/
def applySet (r : TaskRecord) (u : UpdateData) : TaskRecord :=
  { r with
    title := u.title.getD r.title
    description := u.description.getD r.description
    due_date := match u.due_date with
      | some s => .str s
      | none => r.due_date
    priority := u.priority.getD r.priority
    status := u.status.getD r.status }

/-- Embedding of `Database.update_task` from `src/database.py`: `update_one` on `_id`,
reporting `modified_count > 0` — true iff a matching document exists and
the `$set` actually changed it. -/
def update_task (db : DB) (oid : String) (u : UpdateData) : Bool × DB :=
  match db.docs.find? (fun p => p.1 = oid) with
  | none => (false, db)
  | some p =>
    let r := applySet p.2 u
    (decide (r ≠ p.2),
      ⟨db.docs.map (fun q => if q.1 = oid then (q.1, r) else q)⟩)

/-- Embedding of `Database.delete_task` from `src/database.py`: `delete_one` on `_id`,
reporting `deleted_count > 0`. -/
def delete_task (db : DB) (oid : String) : Bool × DB :=
  (db.docs.any (fun p => p.1 = oid), ⟨db.docs.eraseP (fun p => p.1 = oid)⟩)

/-- Embedding of `Database.mark_task_completed` from `src/database.py`: `update_one`
setting `status` to `"Completed"`, reporting `modified_count > 0` (false
both when no document matches and when the status already was
`"Completed"`). -/
def mark_task_completed (db : DB) (oid : String) : Bool × DB :=
  update_task db oid { status := some "Completed" }

end Database

namespace TaskManager

/-- Embedding of `TaskManager.create_task` from `src/task.py`: construct (and thereby
validate) the `Task` with past-date enforcement on, then hand its record
form to the store; any validation failure propagates before the store is
touched. -/
def create_task (db : DB) (td : CreateData) (now nowUtc : DateTime)
    (newOid : String) : Except Err (String × DB) := do
  let task ← taskInit td.title td.description td.due_date td.priority
    (td.status.getD "Pending") none true now nowUtc
  return Database.add_task db (to_dict task) nowUtc newOid

/-- Embedding of `TaskManager.update_task` from `src/task.py`: coerce the id; then, for
the `priority`, `status` and `due_date` keys only, run the matching
validator as a check (its result is discarded, and `title`/`description`
are not checked at all); finally forward the *raw* payload to the store. -/
def update_task (db : DB) (task_id : String) (u : UpdateData)
    (now : DateTime) : Except Err (Bool × DB) := do
  let oid ← parseObjectId task_id
  match u.priority with
  | some p => let _ ← validate_priority p
  | none => pure ()
  match u.status with
  | some st => let _ ← validate_status st
  | none => pure ()
  match u.due_date with
  | some ds => let _ ← parse_date ds true now
  | none => pure ()
  return Database.update_task db oid u

/-- Embedding of `TaskManager.delete_task` from `src/task.py`: coerce the id, then
forward to the store. -/
def delete_task (db : DB) (task_id : String) : Except Err (Bool × DB) := do
  let oid ← parseObjectId task_id
  return Database.delete_task db oid

/-- Embedding of `TaskManager.mark_completed` from `src/task.py`: coerce the id, then
forward to the store. -/
def mark_completed (db : DB) (task_id : String) : Except Err (Bool × DB) := do
  let oid ← parseObjectId task_id
  return Database.mark_task_completed db oid

end TaskManager

/-! ## The title filter's regex -/

/-- A token of the pattern language needed to model the title filter:
literal characters and the PCRE operators `.` and `.*`/`c*`. -/
inductive RTok where
  | lit (c : Char)
  | any
  | litStar (c : Char)
  | anyStar
deriving DecidableEq, Repr

/-- The PCRE metacharacters: every character that the regex engine treats
as an operator (outside character classes) rather than as itself. -/
def pcreMeta : List Char :=
  ['\\', '^', '$', '.', '[', ']', '(', ')', '|', '*', '+', '?',
    '\x7b', '\x7d']

/-- Read a pattern string into tokens: `.` matches any character and a
trailing `*` makes the preceding atom repeatable. The tokenizer is
deliberately partial: a pattern using any PCRE operator this model does
not implement (`\`, `^`, `$`, `[`, `]`, `(`, `)`, `|`, `+`, `?`, braces,
or a stray leading `*`) is refused with `none`, so the model never
asserts anything about a pattern on which it could disagree with the
engine. -/
def parseRE : List Char → Option (List RTok)
  | [] => some []
  | '.' :: '*' :: rest => (parseRE rest).map (RTok.anyStar :: ·)
  | '.' :: rest => (parseRE rest).map (RTok.any :: ·)
  | c :: '*' :: rest =>
    if c ∈ pcreMeta then none
    else (parseRE rest).map (RTok.litStar c :: ·)
  | c :: rest =>
    if c ∈ pcreMeta then none
    else (parseRE rest).map (RTok.lit c :: ·)

/-- Case-insensitive character comparison (the `"$options": "i"` flag). -/
def charCI (a b : Char) : Bool := a.toLower == b.toLower

/-- Anchored (whole-string) regex match of a token list against a
character list, with case-insensitive literals. -/
def reMatch : List RTok → List Char → Bool
  | [], [] => true
  | [], _ :: _ => false
  | .lit _ :: _, [] => false
  | .lit c :: ts, x :: xs => charCI c x && reMatch ts xs
  | .any :: _, [] => false
  | .any :: ts, _ :: xs => reMatch ts xs
  | .litStar _ :: ts, [] => reMatch ts []
  | .litStar c :: ts, x :: xs =>
      reMatch ts (x :: xs) || (charCI c x && reMatch (.litStar c :: ts) xs)
  | .anyStar :: ts, [] => reMatch ts []
  | .anyStar :: ts, x :: xs =>
      reMatch ts (x :: xs) || reMatch (.anyStar :: ts) xs
termination_by ts xs => (xs.length, ts.length)

/-- The predicate `Database.get_tasks` builds for a title filter:
`{"$regex": f"^{title}$", "$options": "i"}`. The raw filter value is
interpolated into the pattern without escaping, so it is matched as a
regex, anchored on both sides by the added `^`/`$`, case-insensitively.
The model covers patterns over literal characters and the `.`/`*`
operators, where it agrees with the engine; on any filter value holding
another PCRE metacharacter it returns `none` (the model declines) rather
than risk diverging from the engine's reading of that operator. -/
def titleFilterMatches (filterTitle stored : String) : Option Bool :=
  (parseRE filterTitle.data).map (fun ts => reMatch ts stored.data)

example : titleFilterMatches "Ship Report" "ship report" = some true := by
  simp [titleFilterMatches, parseRE, reMatch, charCI, pcreMeta]
example : titleFilterMatches "Ship" "Shipment" = some false := by
  simp [titleFilterMatches, parseRE, reMatch, charCI, pcreMeta]
example : titleFilterMatches "a.c" "abc" = some true := by
  simp [titleFilterMatches, parseRE, reMatch, charCI, pcreMeta]
example : titleFilterMatches ".*" "anything at all" = some true := by
  simp [titleFilterMatches, parseRE, reMatch, charCI, pcreMeta]
example : titleFilterMatches "a|b" "apple" = none := by
  simp [titleFilterMatches, parseRE, pcreMeta]
example : titleFilterMatches "C++" "CCC" = none := by
  simp [titleFilterMatches, parseRE, pcreMeta]

/-! ## Helper lemmas: characters and stripping -/

theorem toNat_ofNat_valid {n : Nat} (h : n.isValidChar) :
    (Char.ofNat n).toNat = n := by
  simp [Char.ofNat, h, Char.ofNatAux, Char.toNat, UInt32.toNat,
    BitVec.toNat_ofNatLt]

theorem char_toNat_inj {c d : Char} (h : c.toNat = d.toNat) : c = d := by
  apply Char.eq_of_val_eq
  apply UInt32.toNat.inj
  exact h

/-- Lemma: `Char.toLower` never produces the upper-case letter `P` (it maps the
Latin upper-case range into the lower-case range and fixes everything
else). -/
theorem toLower_ne_P (c : Char) : c.toLower ≠ 'P' := by
  intro hEq
  have h80 : c.toLower.toNat = 80 := by rw [hEq]; decide
  unfold Char.toLower at h80
  by_cases h : c.toNat ≥ 65 ∧ c.toNat ≤ 90
  · rw [if_pos h] at h80
    have hv : (c.toNat + 32).isValidChar := Or.inl (by omega)
    rw [toNat_ofNat_valid hv] at h80
    omega
  · rw [if_neg h] at h80
    exact h (by omega)

/-- Lemma: `pyCapitalize` can never produce the two-word canonical `"In
Progress"`: every character after the first is lower-cased, and
`Char.toLower` never yields the `'P'` at position 3. -/
theorem pyCapitalize_ne_in_progress (s : String) :
    pyCapitalize s ≠ "In Progress" := by
  unfold pyCapitalize
  cases hs : s.data with
  | nil => decide
  | cons c rest =>
    intro hEq
    have hd : c.toUpper :: rest.map Char.toLower = "In Progress".data :=
      congrArg String.data hEq
    have hIP : "In Progress".data =
        ['I', 'n', ' ', 'P', 'r', 'o', 'g', 'r', 'e', 's', 's'] := rfl
    rw [hIP] at hd
    rcases rest with _ | ⟨a, _ | ⟨b, _ | ⟨d, rest3⟩⟩⟩
    · simp at hd
    · simp at hd
    · simp at hd
    · simp only [List.map_cons, List.cons.injEq] at hd
      exact toLower_ne_P d hd.2.2.2.1

/-- Lemma: `pyStrip` written through `List.rdropWhile`. -/
theorem pyStrip_eq (s : String) :
    pyStrip s = String.mk ((s.data.dropWhile Char.isWhitespace).rdropWhile
      Char.isWhitespace) := rfl

/-- Dropping a leading run from a list that has none is the identity, even
after the trailing run is removed. -/
theorem dropWhile_rdropWhile {p : Char → Bool} {l : List Char}
    (h : l.dropWhile p = l) :
    (l.rdropWhile p).dropWhile p = l.rdropWhile p := by
  cases l with
  | nil => simp [List.rdropWhile]
  | cons a t =>
    have ha : ¬ p a := by
      intro hpa
      have := congrArg List.length h
      rw [List.dropWhile_cons_of_pos hpa] at this
      have hle := (List.dropWhile_sublist (l := t) p).length_le
      simp at this
      omega
    rcases List.rdropWhile_prefix p (a :: t) with ⟨r, hr⟩
    cases hpre : (a :: t).rdropWhile p with
    | nil => simp
    | cons b t' =>
      rw [hpre] at hr
      have hb : b = a := by
        have := congrArg (List.head? ·) hr
        simpa using this
      subst hb
      exact List.dropWhile_cons_of_neg ha

/-- Python `strip` is idempotent. -/
theorem pyStrip_idem (s : String) : pyStrip (pyStrip s) = pyStrip s := by
  rw [pyStrip_eq, pyStrip_eq]
  have hdata : (String.mk ((s.data.dropWhile Char.isWhitespace).rdropWhile
      Char.isWhitespace)).data =
      (s.data.dropWhile Char.isWhitespace).rdropWhile Char.isWhitespace := rfl
  rw [hdata]
  rw [dropWhile_rdropWhile (List.dropWhile_idempotent ..)]
  rw [List.rdropWhile_idempotent]

/-! ## Helper lemmas: validators -/

theorem validate_title_ok {s v : String} (h : validate_title s = .ok v) :
    v = pyStrip s ∧ (pyStrip s).isEmpty = false ∧ ¬ (pyStrip s).length > 100 := by
  simp only [validate_title] at h
  split at h
  · exact absurd h (by simp)
  · split at h
    · exact absurd h (by simp)
    · rename_i h1 h2
      refine ⟨by injection h with h; exact h.symm, by simpa using h1, h2⟩

theorem validate_title_idem {s v : String} (h : validate_title s = .ok v) :
    validate_title v = .ok v := by
  obtain ⟨hv, h1, h2⟩ := validate_title_ok h
  subst hv
  unfold validate_title
  rw [pyStrip_idem]
  simp [h1, h2]

theorem validate_description_ok {s v : String}
    (h : validate_description s = .ok v) :
    v = pyStrip s ∧ (pyStrip s).isEmpty = false ∧
      ¬ (pyStrip s).length > 1000 := by
  simp only [validate_description] at h
  split at h
  · exact absurd h (by simp)
  · split at h
    · exact absurd h (by simp)
    · rename_i h1 h2
      refine ⟨by injection h with h; exact h.symm, by simpa using h1, h2⟩

theorem validate_description_idem {s v : String}
    (h : validate_description s = .ok v) :
    validate_description v = .ok v := by
  obtain ⟨hv, h1, h2⟩ := validate_description_ok h
  subst hv
  unfold validate_description
  rw [pyStrip_idem]
  simp [h1, h2]

theorem validate_priority_ok {s v : String}
    (h : validate_priority s = .ok v) :
    v = pyCapitalize (pyStrip s) ∧ v ∈ PRIORITY_LEVELS := by
  simp only [validate_priority] at h
  split at h
  · rename_i hmem
    exact ⟨by injection h with h; exact h.symm, by
      injection h with h; exact h ▸ hmem⟩
  · exact absurd h (by simp)

theorem validate_priority_idem {s v : String}
    (h : validate_priority s = .ok v) : validate_priority v = .ok v := by
  obtain ⟨-, hmem⟩ := validate_priority_ok h
  simp only [PRIORITY_LEVELS, List.mem_cons, List.not_mem_nil,
    or_false] at hmem
  rcases hmem with h | h | h <;> subst h <;> decide

theorem validate_status_ok {s v : String} (h : validate_status s = .ok v) :
    v ∈ STATUS_OPTIONS := by
  simp only [validate_status] at h
  split at h
  · injection h with h
    subst h
    decide
  · split at h
    · rename_i hmem
      injection h with h
      exact h ▸ hmem
    · exact absurd h (by simp)

theorem validate_status_idem {s v : String}
    (h : validate_status s = .ok v) : validate_status v = .ok v := by
  have hmem := validate_status_ok h
  simp only [STATUS_OPTIONS, List.mem_cons, List.not_mem_nil,
    or_false] at hmem
  rcases hmem with h | h | h <;> subst h <;> decide

/-! ## Helper lemmas: formatting round-trip -/

theorem digitChar_toNat (n : Nat) : (digitChar n).toNat = 48 + n % 10 := by
  have h : (48 + n % 10).isValidChar := by
    have := Nat.mod_lt n (y := 10) (by omega)
    exact Or.inl (by omega)
  exact toNat_ofNat_valid h

theorem digitChar_isDigit (n : Nat) : (digitChar n).isDigit = true := by
  have hlt : n % 10 < 10 := Nat.mod_lt n (by omega)
  unfold digitChar
  set m := n % 10 with hm
  interval_cases m <;> decide

theorem pad2_all_digits (n : Nat) : ∀ c ∈ pad2 n, c.isDigit := by
  simp [pad2, digitChar_isDigit]

theorem pad4_all_digits (n : Nat) : ∀ c ∈ pad4 n, c.isDigit := by
  simp [pad4, digitChar_isDigit]

theorem splitNum_append_not_digit {ds : List Char}
    (hds : ∀ c ∈ ds, c.isDigit) {c : Char} (hc : c.isDigit = false)
    (r : List Char) : splitNum (ds ++ c :: r) = (ds, c :: r) := by
  induction ds with
  | nil => simp [splitNum, List.takeWhile_cons, List.dropWhile_cons, hc]
  | cons a t ih =>
    have ha : a.isDigit := hds a (by simp)
    have iht := ih (fun x hx => hds x (by simp [hx]))
    simp only [splitNum, Prod.mk.injEq] at iht
    simp [splitNum, List.takeWhile_cons, List.dropWhile_cons, ha,
      iht.1, iht.2]

theorem splitNum_all_digits {ds : List Char}
    (hds : ∀ c ∈ ds, c.isDigit) : splitNum ds = (ds, []) := by
  induction ds with
  | nil => simp [splitNum]
  | cons a t ih =>
    have ha : a.isDigit := hds a (by simp)
    have iht := ih (fun x hx => hds x (by simp [hx]))
    simp only [splitNum, Prod.mk.injEq] at iht
    simp [splitNum, List.takeWhile_cons, List.dropWhile_cons, ha,
      iht.1, iht.2]

theorem digitsVal_pad2 {n : Nat} (h : n < 100) : digitsVal (pad2 n) = n := by
  simp only [digitsVal, pad2, List.foldl_cons, List.foldl_nil,
    digitChar_toNat]
  omega

theorem digitsVal_pad4 {n : Nat} (h : n ≤ 9999) :
    digitsVal (pad4 n) = n := by
  simp only [digitsVal, pad4, List.foldl_cons, List.foldl_nil,
    digitChar_toNat]
  omega

theorem pad2_isEmpty (n : Nat) : (pad2 n).isEmpty = false := rfl

theorem pad4_isEmpty (n : Nat) : (pad4 n).isEmpty = false := rfl

theorem parseYMD_pads {y m d : Nat} (hy : y ≤ 9999) (hm : m < 100)
    (hd : d < 100) (r : List Char) :
    parseYMD (pad4 y ++ '-' :: (pad2 m ++ '-' :: (pad2 d ++ ' ' :: r))) =
      some (y, m, d, ' ' :: r) := by
  unfold parseYMD
  rw [splitNum_append_not_digit (pad4_all_digits y) (by decide)]
  simp only [pad4_isEmpty, Bool.false_eq_true, if_false]
  rw [splitNum_append_not_digit (pad2_all_digits m) (by decide)]
  simp only [pad2_isEmpty, Bool.false_eq_true, if_false]
  rw [splitNum_append_not_digit (pad2_all_digits d) (by decide)]
  simp only [pad2_isEmpty, Bool.false_eq_true, if_false]
  rw [digitsVal_pad4 hy, digitsVal_pad2 hm, digitsVal_pad2 hd]

theorem parseHMS_pads {h mi : Nat} (hh : h < 100) (hmi : mi < 100) :
    parseHMS (pad2 h ++ ':' :: pad2 mi) = some (h, mi, 0) := by
  unfold parseHMS
  rw [splitNum_append_not_digit (pad2_all_digits h) (by decide)]
  simp only [pad2_isEmpty, Bool.false_eq_true, if_false]
  rw [splitNum_all_digits (pad2_all_digits mi)]
  simp only [pad2_isEmpty, Bool.false_eq_true, if_false]
  rw [digitsVal_pad2 hh, digitsVal_pad2 hmi]

/-- Validity of all components of a timestamp, as guaranteed for every
timestamp the embedded parser produces. -/
def DateTime.ValidB (d : DateTime) : Bool :=
  validYMD d.year d.month d.day && validHMS d.hour d.minute d.second

theorem dateutilParse_valid {s : String} {d : DateTime}
    (h : dateutilParse s = some d) : DateTime.ValidB d = true := by
  unfold dateutilParse at h
  split at h
  · exact absurd h (by simp)
  · rename_i y m dd rest heq
    split at h
    · rename_i hymd
      split at h
      · injection h with h
        subst h
        simp [DateTime.ValidB, hymd, validHMS]
      · split at h
        · exact absurd h (by simp)
        · rename_i hhms
          split at h
          · rename_i hv
            injection h with h
            subst h
            simp [DateTime.ValidB, hymd, hv]
          · exact absurd h (by simp)
      · exact absurd h (by simp)
    · exact absurd h (by simp)

/-- Re-parsing the minute-precision rendering of a valid timestamp recovers
it with the seconds field zeroed. -/
theorem dateutilParse_formatMinute {d : DateTime}
    (h : DateTime.ValidB d = true) :
    dateutilParse (formatMinute d) =
      some ⟨d.year, d.month, d.day, d.hour, d.minute, 0⟩ := by
  simp only [DateTime.ValidB, validYMD, validHMS, Bool.and_eq_true,
    decide_eq_true_eq] at h
  obtain ⟨⟨⟨⟨⟨⟨h1, h2⟩, h3⟩, h4⟩, h5⟩, h6⟩, ⟨⟨h7, h8⟩, h9⟩⟩ := h
  have hm : d.month < 100 := by omega
  have hdd : d.day < 100 := by
    have : daysInMonth d.year d.month ≤ 31 := by
      unfold daysInMonth
      split
      · split <;> omega
      · split <;> omega
    omega
  have hh : d.hour < 100 := by omega
  have hmi : d.minute < 100 := by omega
  unfold dateutilParse formatMinute
  have hdata : (String.mk (pad4 d.year ++ '-' :: pad2 d.month ++
      '-' :: pad2 d.day ++ ' ' :: pad2 d.hour ++ ':' :: pad2 d.minute)).data =
      pad4 d.year ++ '-' :: (pad2 d.month ++ '-' :: (pad2 d.day ++
        ' ' :: (pad2 d.hour ++ ':' :: pad2 d.minute))) := by simp
  rw [hdata, parseYMD_pads h2 hm hdd]
  have hymd : validYMD d.year d.month d.day = true := by
    simp only [validYMD, Bool.and_eq_true, decide_eq_true_eq]
    omega
  have hhms : validHMS d.hour d.minute 0 = true := by
    simp only [validHMS, Bool.and_eq_true, decide_eq_true_eq]
    omega
  simp [hymd, hhms, parseHMS_pads hh hmi]

/-! ## Helper lemmas: task construction -/

theorem parse_date_ok {s : String} {vp : Bool} {now d : DateTime}
    (h : parse_date s vp now = .ok d) : dateutilParse s = some d := by
  unfold parse_date at h
  split at h
  · exact absurd h (by simp)
  · rename_i d' heq
    split at h
    · exact absurd h (by simp)
    · injection h with h
      subst h
      exact heq

theorem taskInit_ok {title desc dd prio st : String} {tid : Option String}
    {vp : Bool} {now nowUtc : DateTime} {t : Task}
    (h : taskInit title desc dd prio st tid vp now nowUtc = .ok t) :
    validate_title title = .ok t.title ∧
    validate_description desc = .ok t.description ∧
    parse_date dd vp now = .ok t.due_date ∧
    validate_priority prio = .ok t.priority ∧
    validate_status st = .ok t.status ∧
    t.id = tid ∧ t.creation_timestamp = nowUtc := by
  simp only [taskInit, bind, Except.bind, pure, Except.pure] at h
  cases h1 : validate_title title with
  | error e => rw [h1] at h; exact absurd h (by simp)
  | ok vt =>
    rw [h1] at h
    cases h2 : validate_description desc with
    | error e => rw [h2] at h; exact absurd h (by simp)
    | ok vdesc =>
      rw [h2] at h
      cases h3 : parse_date dd vp now with
      | error e => rw [h3] at h; exact absurd h (by simp)
      | ok vdd =>
        rw [h3] at h
        cases h4 : validate_priority prio with
        | error e => rw [h4] at h; exact absurd h (by simp)
        | ok vp' =>
          rw [h4] at h
          cases h5 : validate_status st with
          | error e => rw [h5] at h; exact absurd h (by simp)
          | ok vst =>
            rw [h5] at h
            injection h with h
            subst h
            exact ⟨rfl, rfl, rfl, rfl, rfl, rfl, rfl⟩

/-! ## Helper lemmas: update forwarding -/

theorem update_task_forwards_raw {db : DB} {tid : String} {u : UpdateData}
    {now : DateTime} {oid : String}
    (hid : parseObjectId tid = .ok oid)
    (hpr : ∀ p, u.priority = some p → ∃ v, validate_priority p = .ok v)
    (hst : ∀ s, u.status = some s → ∃ v, validate_status s = .ok v)
    (hdd : ∀ ds, u.due_date = some ds → ∃ d, parse_date ds true now = .ok d) :
    TaskManager.update_task db tid u now =
      .ok (Database.update_task db oid u) := by
  simp only [TaskManager.update_task, bind, Except.bind, hid]
  cases hu1 : u.priority with
  | some p =>
    obtain ⟨v, hv⟩ := hpr p hu1
    cases hu2 : u.status with
    | some st =>
      obtain ⟨v2, hv2⟩ := hst st hu2
      cases hu3 : u.due_date with
      | some ds =>
        obtain ⟨d2, hv3⟩ := hdd ds hu3
        simp [hv, hv2, hv3, bind, Except.bind, pure, Except.pure]
      | none => simp [hv, hv2, bind, Except.bind, pure, Except.pure]
    | none =>
      cases hu3 : u.due_date with
      | some ds =>
        obtain ⟨d2, hv3⟩ := hdd ds hu3
        simp [hv, hv3, bind, Except.bind, pure, Except.pure]
      | none => simp [hv, bind, Except.bind, pure, Except.pure]
  | none =>
    cases hu2 : u.status with
    | some st =>
      obtain ⟨v2, hv2⟩ := hst st hu2
      cases hu3 : u.due_date with
      | some ds =>
        obtain ⟨d2, hv3⟩ := hdd ds hu3
        simp [hv2, hv3, bind, Except.bind, pure, Except.pure]
      | none => simp [hv2, bind, Except.bind, pure, Except.pure]
    | none =>
      cases hu3 : u.due_date with
      | some ds =>
        obtain ⟨d2, hv3⟩ := hdd ds hu3
        simp [hv3, bind, Except.bind, pure, Except.pure]
      | none => simp [bind, Except.bind, pure, Except.pure]

theorem update_task_priority_error {db : DB} {tid : String}
    {u : UpdateData} {now : DateTime} {oid : String} {p : String} {e : Err}
    (hid : parseObjectId tid = .ok oid) (hp : u.priority = some p)
    (he : validate_priority p = .error e) :
    TaskManager.update_task db tid u now = .error e := by
  simp [TaskManager.update_task, bind, Except.bind, hid, hp, he]

theorem update_task_status_error {db : DB} {tid : String}
    {u : UpdateData} {now : DateTime} {oid : String} {st : String} {e : Err}
    (hid : parseObjectId tid = .ok oid)
    (hpr : ∀ p, u.priority = some p → ∃ v, validate_priority p = .ok v)
    (hs : u.status = some st) (he : validate_status st = .error e) :
    TaskManager.update_task db tid u now = .error e := by
  simp only [TaskManager.update_task, bind, Except.bind, hid, hs, he]
  cases hu1 : u.priority with
  | some p =>
    obtain ⟨v, hv⟩ := hpr p hu1
    simp [hv, bind, Except.bind, pure, Except.pure]
  | none => simp [bind, Except.bind, pure, Except.pure]

theorem update_task_due_error {db : DB} {tid : String}
    {u : UpdateData} {now : DateTime} {oid : String} {ds : String} {e : Err}
    (hid : parseObjectId tid = .ok oid)
    (hpr : ∀ p, u.priority = some p → ∃ v, validate_priority p = .ok v)
    (hst : ∀ s, u.status = some s → ∃ v, validate_status s = .ok v)
    (hd : u.due_date = some ds) (he : parse_date ds true now = .error e) :
    TaskManager.update_task db tid u now = .error e := by
  simp only [TaskManager.update_task, bind, Except.bind, hid, hd, he]
  cases hu1 : u.priority with
  | some p =>
    obtain ⟨v, hv⟩ := hpr p hu1
    cases hu2 : u.status with
    | some st =>
      obtain ⟨v2, hv2⟩ := hst st hu2
      simp [hv, hv2, bind, Except.bind, pure, Except.pure]
    | none => simp [hv, bind, Except.bind, pure, Except.pure]
  | none =>
    cases hu2 : u.status with
    | some st =>
      obtain ⟨v2, hv2⟩ := hst st hu2
      simp [hv2, bind, Except.bind, pure, Except.pure]
    | none => simp [bind, Except.bind, pure, Except.pure]

/-! ## Helper lemmas: regex on metacharacter-free patterns -/

/-- A pattern containing no PCRE metacharacter at all reads as a list of
literal tokens (on this domain the model and the engine agree: the added
anchors make the pattern a whole-string literal match). -/
theorem parseRE_no_meta : ∀ (l : List Char),
    (∀ c ∈ l, c ∉ pcreMeta) → parseRE l = some (l.map RTok.lit)
  | [], _ => rfl
  | [c], h => by
    have hcm := h c (by simp)
    have hc : c ≠ '.' := fun hEq => hcm (by rw [hEq]; decide)
    rw [parseRE.eq_def]
    simp [hc, hcm, parseRE]
  | c :: d :: rest, h => by
    have hcm := h c (by simp)
    have hdm := h d (by simp)
    have hc : c ≠ '.' := fun hEq => hcm (by rw [hEq]; decide)
    have hd : d ≠ '*' := fun hEq => hdm (by rw [hEq]; decide)
    have ih := parseRE_no_meta (d :: rest) (fun x hx => h x (by simp [hx]))
    rw [parseRE.eq_def]
    split
    · rename_i heq; exact absurd heq (by simp)
    · rename_i heq
      injection heq with h1 h2
      exact absurd h1 hc
    · rename_i heq
      injection heq with h1 h2
      exact absurd h1 hc
    · rename_i hne
      injection hne with h1 h2
      injection h2 with h2 h3
      exact absurd h2 hd
    · rename_i heq
      injection heq with h1 h2
      subst h1
      subst h2
      rw [if_neg hcm, ih]
      rfl

/-- A list of literal tokens matches exactly the strings equal to the
pattern up to letter case. -/
theorem reMatch_lits (fs xs : List Char) :
    reMatch (fs.map RTok.lit) xs = true ↔
      fs.map Char.toLower = xs.map Char.toLower := by
  induction fs generalizing xs with
  | nil => cases xs <;> simp [reMatch]
  | cons a t ih =>
    cases xs with
    | nil => simp [reMatch]
    | cons b u =>
      simp [reMatch, charCI, ih, List.cons.injEq, Bool.and_eq_true,
        beq_iff_eq]

/-! ## Sample store contents used by concrete counterexamples -/

/-- A well-formed ObjectId string. -/
def oidA : String := "aaaaaaaaaaaaaaaaaaaaaaaa"

/-- A stored document in canonical form. -/
def recA : TaskRecord :=
  ⟨some oidA, "Old title", "Old desc", .dt ⟨2030, 1, 1, 23, 59, 59⟩,
    "Medium", "Pending", ⟨2024, 1, 1, 0, 0, 0⟩⟩

/-- A store holding exactly `recA` under `oidA`. -/
def dbA : DB := ⟨[(oidA, recA)]⟩

/-! ## Claims -/

/-- Claim C1. The claim says a date string without a time component parses to
23:59:59 (end of day) on that date. The code disagrees: its end-of-day
branch re-parses the same string inside an `except` handler and so can
never produce a value, and the plain `dateutil` parse fills the missing
time with zero — `"2024-01-01"` yields midnight `00:00:00`, not
`23:59:59`, contradicting the source's own comment ("If time not provided,
set to end of day (23:59:59)") and its display logic, which special-cases
the 23:59:59 value that parsing can never produce. The second half of the
claim (an explicit time is preserved exactly) does hold, as the second
conjunct shows. -/
theorem C1_bare_date_parses_to_midnight :
    parse_date "2024-01-01" false ⟨2024, 6, 15, 12, 0, 0⟩ =
      .ok ⟨2024, 1, 1, 0, 0, 0⟩ ∧
    parse_date "2024-01-01 09:00" false ⟨2024, 6, 15, 12, 0, 0⟩ =
      .ok ⟨2024, 1, 1, 9, 0, 0⟩ := by
  constructor <;> decide

/-- Claim C6. With future-enforcement on, a parseable date fails with
`PastDate` exactly when the parsed instant is strictly before the current
instant, at full date-time precision; with enforcement off every parseable
date is accepted unchanged. -/
theorem C6_enforce_future (s : String) (now d : DateTime)
    (h : dateutilParse s = some d) :
    (parse_date s true now = .error .pastDate ↔ DateTime.ltb d now = true) ∧
    parse_date s false now = .ok d := by
  unfold parse_date
  rw [h]
  refine ⟨⟨fun he => ?_, fun hlt => by simp [hlt]⟩, by simp⟩
  by_cases hlt : DateTime.ltb d now = true
  · exact hlt
  · simp [hlt] at he

/-- Witness for C6 at the spec's frozen clock `2024-06-15T12:00:00`:
`"2024-06-14"` parses, fails under enforcement (it is strictly earlier,
comparing at full precision), and is accepted without enforcement. -/
theorem C6_enforce_future_witness :
    parse_date "2024-06-14" true ⟨2024, 6, 15, 12, 0, 0⟩ =
      .error .pastDate ∧
    parse_date "2024-06-14" false ⟨2024, 6, 15, 12, 0, 0⟩ =
      .ok ⟨2024, 6, 14, 0, 0, 0⟩ := by
  have h := C6_enforce_future "2024-06-14" ⟨2024, 6, 15, 12, 0, 0⟩
    ⟨2024, 6, 14, 0, 0, 0⟩ (by decide)
  exact ⟨h.1.mpr (by decide), h.2⟩

/-- Claim C10. Each of the four string validators is idempotent: re-running a
validator on a value it accepted succeeds and returns the value
unchanged. -/
theorem C10_validators_idempotent :
    (∀ s v, validate_title s = .ok v → validate_title v = .ok v) ∧
    (∀ s v, validate_description s = .ok v →
      validate_description v = .ok v) ∧
    (∀ s v, validate_priority s = .ok v → validate_priority v = .ok v) ∧
    (∀ s v, validate_status s = .ok v → validate_status v = .ok v) :=
  ⟨fun _ _ h => validate_title_idem h,
   fun _ _ h => validate_description_idem h,
   fun _ _ h => validate_priority_idem h,
   fun _ _ h => validate_status_idem h⟩

/-- Witness for C10 on concrete accepted values of all four
validators. -/
theorem C10_validators_idempotent_witness :
    validate_title " Ship report " = .ok "Ship report" ∧
    validate_title "Ship report" = .ok "Ship report" ∧
    validate_description " d " = .ok "d" ∧
    validate_description "d" = .ok "d" ∧
    validate_priority "low" = .ok "Low" ∧
    validate_priority "Low" = .ok "Low" ∧
    validate_status "IN PROGRESS" = .ok "In Progress" ∧
    validate_status "In Progress" = .ok "In Progress" := by
  refine ⟨by decide, C10_validators_idempotent.1 " Ship report " _ (by decide),
    by decide, C10_validators_idempotent.2.1 " d " _ (by decide),
    by decide, C10_validators_idempotent.2.2.1 "low" _ (by decide),
    by decide, C10_validators_idempotent.2.2.2 "IN PROGRESS" _ (by decide)⟩

/-- Claim C8. A malformed identifier makes `update_task`, `delete_task` and
`mark_completed` fail with the id-format error before the store is touched
(the error result carries no store interaction), while a well-formed
identifier matching no stored document is not an error: each operation
returns `false` and leaves the store unchanged (for the update, provided
the payload itself passes its field checks, which are independent of the
identifier). -/
theorem C8_id_error_vs_not_found (db : DB) (tid : String) (u : UpdateData)
    (now : DateTime) :
    (parseObjectId tid = .error .invalidIdFormat →
      TaskManager.update_task db tid u now = .error .invalidIdFormat ∧
      TaskManager.delete_task db tid = .error .invalidIdFormat ∧
      TaskManager.mark_completed db tid = .error .invalidIdFormat) ∧
    (∀ oid, parseObjectId tid = .ok oid → (∀ p ∈ db.docs, p.1 ≠ oid) →
      (∀ p, u.priority = some p → ∃ v, validate_priority p = .ok v) →
      (∀ st, u.status = some st → ∃ v, validate_status st = .ok v) →
      (∀ ds, u.due_date = some ds → ∃ d, parse_date ds true now = .ok d) →
      TaskManager.update_task db tid u now = .ok (false, db) ∧
      TaskManager.delete_task db tid = .ok (false, db) ∧
      TaskManager.mark_completed db tid = .ok (false, db)) := by
  constructor
  · intro herr
    refine ⟨?_, ?_, ?_⟩ <;>
      simp [TaskManager.update_task, TaskManager.delete_task,
        TaskManager.mark_completed, herr, bind, Except.bind]
  · intro oid hok hno hpr hst hdd
    have hfind : db.docs.find? (fun p => p.1 = oid) = none := by
      rw [List.find?_eq_none]
      intro p hp
      simp [hno p hp]
    have hany : db.docs.any (fun p => p.1 = oid) = false := by
      rw [List.any_eq_false]
      intro p hp
      simp [hno p hp]
    have herase : db.docs.eraseP (fun p => p.1 = oid) = db.docs :=
      List.eraseP_of_forall_not (fun p hp => by simp [hno p hp])
    refine ⟨?_, ?_, ?_⟩
    · simp only [TaskManager.update_task, bind, Except.bind, hok]
      cases hu1 : u.priority with
      | some p =>
        obtain ⟨v, hv⟩ := hpr p hu1
        cases hu2 : u.status with
        | some st =>
          obtain ⟨v2, hv2⟩ := hst st hu2
          cases hu3 : u.due_date with
          | some ds =>
            obtain ⟨d2, hv3⟩ := hdd ds hu3
            simp [hv, hv2, hv3, Database.update_task, hfind, bind,
              Except.bind, pure, Except.pure]
          | none =>
            simp [hv, hv2, Database.update_task, hfind, bind,
              Except.bind, pure, Except.pure]
        | none =>
          cases hu3 : u.due_date with
          | some ds =>
            obtain ⟨d2, hv3⟩ := hdd ds hu3
            simp [hv, hv3, Database.update_task, hfind, bind,
              Except.bind, pure, Except.pure]
          | none =>
            simp [hv, Database.update_task, hfind, bind,
              Except.bind, pure, Except.pure]
      | none =>
        cases hu2 : u.status with
        | some st =>
          obtain ⟨v2, hv2⟩ := hst st hu2
          cases hu3 : u.due_date with
          | some ds =>
            obtain ⟨d2, hv3⟩ := hdd ds hu3
            simp [hv2, hv3, Database.update_task, hfind, bind,
              Except.bind, pure, Except.pure]
          | none =>
            simp [hv2, Database.update_task, hfind, bind,
              Except.bind, pure, Except.pure]
        | none =>
          cases hu3 : u.due_date with
          | some ds =>
            obtain ⟨d2, hv3⟩ := hdd ds hu3
            simp [hv3, Database.update_task, hfind, bind,
              Except.bind, pure, Except.pure]
          | none =>
            simp [Database.update_task, hfind, bind,
              Except.bind, pure, Except.pure]
    · simp [TaskManager.delete_task, hok, Database.delete_task, hany,
        herase, bind, Except.bind, pure, Except.pure]
    · simp [TaskManager.mark_completed, hok,
        Database.mark_task_completed, Database.update_task, hfind, bind,
        Except.bind, pure, Except.pure]

/-- Witness for C8: the malformed id `"xyz"` fails all three
operations with the id-format error; the well-formed id
`"aaaaaaaaaaaaaaaaaaaaaaaa"` against an empty store returns `false`
everywhere. -/
theorem C8_id_error_vs_not_found_witness :
    TaskManager.delete_task ⟨[]⟩ "xyz" = .error .invalidIdFormat ∧
    TaskManager.delete_task ⟨[]⟩ "aaaaaaaaaaaaaaaaaaaaaaaa" =
      .ok (false, ⟨[]⟩) ∧
    TaskManager.mark_completed ⟨[]⟩ "aaaaaaaaaaaaaaaaaaaaaaaa" =
      .ok (false, ⟨[]⟩) := by
  have h1 := (C8_id_error_vs_not_found ⟨[]⟩ "xyz" {} ⟨2024, 1, 1, 0, 0, 0⟩).1
    (by decide)
  have h2 := (C8_id_error_vs_not_found ⟨[]⟩ "aaaaaaaaaaaaaaaaaaaaaaaa" {}
    ⟨2024, 1, 1, 0, 0, 0⟩).2 "aaaaaaaaaaaaaaaaaaaaaaaa" (by decide)
    (by simp) (by simp) (by simp) (by simp)
  exact ⟨h1.2.1, h2.2.1, h2.2.2⟩

/-- Claim C9. Task creation is atomic with respect to the store: when any of
the five field validations fails, `create_task` propagates that failure
and the store is never called (no success state exists, so no record is
inserted); when construction succeeds, exactly the validated task's record
is appended. -/
theorem C9_create_task_atomic (db : DB) (td : CreateData)
    (now nowUtc : DateTime) (newOid : String) :
    (∀ e, taskInit td.title td.description td.due_date td.priority
        (td.status.getD "Pending") none true now nowUtc = .error e →
      TaskManager.create_task db td now nowUtc newOid = .error e) ∧
    (∀ t, taskInit td.title td.description td.due_date td.priority
        (td.status.getD "Pending") none true now nowUtc = .ok t →
      TaskManager.create_task db td now nowUtc newOid =
        .ok (newOid, ⟨db.docs ++
          [(newOid, { to_dict t with creation_timestamp := nowUtc })]⟩)) := by
  constructor
  · intro e he
    simp [TaskManager.create_task, he, bind, Except.bind]
  · intro t ht
    simp [TaskManager.create_task, ht, bind, Except.bind, pure,
      Except.pure, Database.add_task]

/-- Witness for C9: an empty title aborts creation with the title
error and no record reaches the store; a fully valid input inserts one
record. -/
theorem C9_create_task_atomic_witness :
    TaskManager.create_task ⟨[]⟩ ⟨" ", "d", "2999-01-01", "low", none⟩
      ⟨2024, 1, 1, 0, 0, 0⟩ ⟨2024, 1, 1, 0, 0, 0⟩ "a" =
      .error (.invalidField "Title cannot be empty") ∧
    TaskManager.create_task ⟨[]⟩ ⟨"T", "d", "2999-01-01", "low", none⟩
      ⟨2024, 1, 1, 0, 0, 0⟩ ⟨2024, 1, 1, 0, 0, 0⟩ "a" =
      .ok ("a", ⟨[("a", ⟨none, "T", "d", .dt ⟨2999, 1, 1, 0, 0, 0⟩, "Low",
        "Pending", ⟨2024, 1, 1, 0, 0, 0⟩⟩)]⟩) := by
  refine ⟨(C9_create_task_atomic ⟨[]⟩ ⟨" ", "d", "2999-01-01", "low", none⟩
      ⟨2024, 1, 1, 0, 0, 0⟩ ⟨2024, 1, 1, 0, 0, 0⟩ "a").1 _ (by decide),
    (C9_create_task_atomic ⟨[]⟩ ⟨"T", "d", "2999-01-01", "low", none⟩
      ⟨2024, 1, 1, 0, 0, 0⟩ ⟨2024, 1, 1, 0, 0, 0⟩ "a").2
      ⟨none, "T", "d", ⟨2999, 1, 1, 0, 0, 0⟩, "Low", "Pending",
        ⟨2024, 1, 1, 0, 0, 0⟩⟩ (by decide)⟩

/-- Claim C2, counterexample. The record form renders the due date with
`strftime("%Y-%m-%d %H:%M")`, so seconds are lost: a validly constructed
task due `2024-01-01 09:00:30` comes back from its own record with due
date `09:00:00` — the round trip is not equal to full timestamp
precision. -/
theorem C2_roundtrip_counterexample :
    taskInit "A" "B" "2024-01-01 09:00:30" "Low" "Pending" none false
      ⟨2024, 6, 15, 12, 0, 0⟩ ⟨2024, 1, 1, 0, 0, 0⟩ =
      .ok ⟨none, "A", "B", ⟨2024, 1, 1, 9, 0, 30⟩, "Low", "Pending",
        ⟨2024, 1, 1, 0, 0, 0⟩⟩ ∧
    from_dict (to_dict ⟨none, "A", "B", ⟨2024, 1, 1, 9, 0, 30⟩, "Low",
        "Pending", ⟨2024, 1, 1, 0, 0, 0⟩⟩) ⟨2024, 6, 15, 12, 0, 0⟩
        ⟨2024, 2, 2, 0, 0, 0⟩ =
      .ok ⟨none, "A", "B", ⟨2024, 1, 1, 9, 0, 0⟩, "Low", "Pending",
        ⟨2024, 1, 1, 0, 0, 0⟩⟩ ∧
    (⟨2024, 1, 1, 9, 0, 0⟩ : DateTime) ≠ ⟨2024, 1, 1, 9, 0, 30⟩ := by
  refine ⟨by decide, by decide, by decide⟩

/-- Claim C2, amended. For every task built by the constructor, converting
to record form and reconstructing yields a task with the same title,
description, priority, status and id, the creation timestamp preserved
(not regenerated), and the due date preserved to minute precision — the
seconds field is zeroed by the record formatting. In particular tasks
whose due-date seconds are zero round-trip to an equal task. -/
theorem C2_roundtrip_minute_precision
    {title desc dd prio st : String} {tid : Option String} {vp : Bool}
    {now nowUtc : DateTime} {t : Task}
    (h : taskInit title desc dd prio st tid vp now nowUtc = .ok t)
    (now2 nowUtc2 : DateTime) :
    from_dict (to_dict t) now2 nowUtc2 =
      .ok { t with due_date := { t.due_date with second := 0 } } := by
  obtain ⟨h1, h2, h3, h4, h5, h6, h7⟩ := taskInit_ok h
  have hparse := parse_date_ok h3
  have hvalid := dateutilParse_valid hparse
  have hfmt := dateutilParse_formatMinute hvalid
  have hdate : parse_date (formatMinute t.due_date) false now2 =
      .ok ⟨t.due_date.year, t.due_date.month, t.due_date.day,
        t.due_date.hour, t.due_date.minute, 0⟩ := by
    unfold parse_date
    rw [hfmt]
    simp
  have htask : taskInit t.title t.description (formatMinute t.due_date)
      t.priority t.status t.id false now2 nowUtc2 =
      .ok ⟨t.id, t.title, t.description,
        ⟨t.due_date.year, t.due_date.month, t.due_date.day,
          t.due_date.hour, t.due_date.minute, 0⟩,
        t.priority, t.status, nowUtc2⟩ := by
    simp only [taskInit, bind, Except.bind, validate_title_idem h1,
      validate_description_idem h2, hdate, validate_priority_idem h4,
      validate_status_idem h5, pure, Except.pure]
  simp only [from_dict, to_dict, bind, Except.bind, htask, pure,
    Except.pure]

/-- Witness for C2, amended, on a concrete constructed task (whose
due-date seconds are zero, so the round trip is exact). -/
theorem C2_roundtrip_minute_precision_witness :
    from_dict (to_dict ⟨none, "A", "B", ⟨2024, 1, 1, 9, 30, 0⟩, "Low",
        "Pending", ⟨2024, 1, 1, 0, 0, 0⟩⟩) ⟨2024, 6, 15, 12, 0, 0⟩
        ⟨2024, 2, 2, 0, 0, 0⟩ =
      .ok ⟨none, "A", "B", ⟨2024, 1, 1, 9, 30, 0⟩, "Low", "Pending",
        ⟨2024, 1, 1, 0, 0, 0⟩⟩ :=
  @C2_roundtrip_minute_precision "A" "B" "2024-01-01 09:30" "Low"
    "Pending" none false ⟨2024, 6, 15, 12, 0, 0⟩ ⟨2024, 1, 1, 0, 0, 0⟩
    ⟨none, "A", "B", ⟨2024, 1, 1, 9, 30, 0⟩, "Low", "Pending",
      ⟨2024, 1, 1, 0, 0, 0⟩⟩
    (by decide) ⟨2024, 6, 15, 12, 0, 0⟩ ⟨2024, 2, 2, 0, 0, 0⟩

/-- Claim C3, counterexample. The claim says *every* present field of a
partial update is validated before the store is called. Title (and
description) updates are not: an empty title — which `validate_title`
rejects — sails through `update_task` and is written to the store. -/
theorem C3_unvalidated_title_update :
    validate_title "" = .error (.invalidField "Title cannot be empty") ∧
    TaskManager.update_task dbA oidA
        ⟨some "", none, none, none, none⟩ ⟨2024, 6, 15, 12, 0, 0⟩ =
      .ok (true, ⟨[(oidA, ⟨some oidA, "", "Old desc",
        .dt ⟨2030, 1, 1, 23, 59, 59⟩, "Medium", "Pending",
        ⟨2024, 1, 1, 0, 0, 0⟩⟩)]⟩) := by
  constructor
  · decide
  · simp [TaskManager.update_task, bind, Except.bind, pure, Except.pure,
      parseObjectId, oidA, dbA, recA, Database.update_task,
      Database.applySet, List.find?, pyLower]
    decide

/-- Claim C3, amended. Of the fields a partial update may carry, exactly
`priority`, `status` and `due_date` are validated before the update is
forwarded to the store — the due date with future-enforcement ON — and an
invalid value in any of these three makes `update_task` fail with that
validator's error before any store call; `title` and `description` are
forwarded without validation (the success case places no condition on
them). -/
theorem C3_partial_update_validation (db : DB) (tid : String)
    (u : UpdateData) (now : DateTime) (oid : String)
    (hid : parseObjectId tid = .ok oid) :
    (∀ p e, u.priority = some p → validate_priority p = .error e →
      TaskManager.update_task db tid u now = .error e) ∧
    (∀ st e, (∀ p, u.priority = some p → ∃ v, validate_priority p = .ok v) →
      u.status = some st → validate_status st = .error e →
      TaskManager.update_task db tid u now = .error e) ∧
    (∀ ds e, (∀ p, u.priority = some p → ∃ v, validate_priority p = .ok v) →
      (∀ s, u.status = some s → ∃ v, validate_status s = .ok v) →
      u.due_date = some ds → parse_date ds true now = .error e →
      TaskManager.update_task db tid u now = .error e) ∧
    ((∀ p, u.priority = some p → ∃ v, validate_priority p = .ok v) →
      (∀ s, u.status = some s → ∃ v, validate_status s = .ok v) →
      (∀ ds, u.due_date = some ds → ∃ d, parse_date ds true now = .ok d) →
      TaskManager.update_task db tid u now =
        .ok (Database.update_task db oid u)) :=
  ⟨fun _ _ hp he => update_task_priority_error hid hp he,
   fun _ _ hpr hs he => update_task_status_error hid hpr hs he,
   fun _ _ hpr hst hd he => update_task_due_error hid hpr hst hd he,
   fun hpr hst hdd => update_task_forwards_raw hid hpr hst hdd⟩

/-- Witness for C3, amended: an invalid priority (`"urgent"`) in a
partial update fails with the priority error before the store is called; a
past due date (`"2000-01-01"` against a 2024 clock) fails with the
past-date error, showing enforcement is ON for updates. -/
theorem C3_partial_update_validation_witness :
    TaskManager.update_task dbA oidA
        ⟨none, none, none, some "urgent", none⟩ ⟨2024, 6, 15, 12, 0, 0⟩ =
      .error (.invalidEnum "Priority must be one of: Low, Medium, High") ∧
    TaskManager.update_task dbA oidA
        ⟨none, none, some "2000-01-01", none, none⟩
        ⟨2024, 6, 15, 12, 0, 0⟩ = .error .pastDate := by
  constructor
  · exact (C3_partial_update_validation dbA oidA
      ⟨none, none, none, some "urgent", none⟩ ⟨2024, 6, 15, 12, 0, 0⟩
      (pyLower oidA) (by decide)).1 "urgent" _ rfl (by decide)
  · exact (C3_partial_update_validation dbA oidA
      ⟨none, none, some "2000-01-01", none, none⟩ ⟨2024, 6, 15, 12, 0, 0⟩
      (pyLower oidA) (by decide)).2.2.1 "2000-01-01" _ (by simp)
      (by simp) rfl (by decide)

/-- Claim C4, counterexample. The claim says the update forwarded to the
store contains validator-normalized values, so a user-typed `"high"` is
stored as `"High"`. In the code the validators' return values are
discarded and the raw payload is forwarded: `"high"` passes validation
(normalizing to `"High"`) but is stored verbatim as `"high"`. -/
theorem C4_raw_priority_stored :
    validate_priority "high" = .ok "High" ∧
    TaskManager.update_task dbA oidA
        ⟨none, none, none, some "high", none⟩ ⟨2024, 6, 15, 12, 0, 0⟩ =
      .ok (true, ⟨[(oidA, ⟨some oidA, "Old title", "Old desc",
        .dt ⟨2030, 1, 1, 23, 59, 59⟩, "high", "Pending",
        ⟨2024, 1, 1, 0, 0, 0⟩⟩)]⟩) ∧
    "high" ≠ "High" := by
  refine ⟨by decide, ?_, by decide⟩
  simp [TaskManager.update_task, bind, Except.bind, pure, Except.pure,
    parseObjectId, oidA, dbA, recA, Database.update_task,
    Database.applySet, List.find?, pyLower, validate_priority]
  decide

/-- Claim C4, amended. The partial update forwarded to the store is the raw
input payload, not the validator-normalized values: when the id coerces
and every present checked field passes its validator, `update_task` hands
the store exactly the payload it was given (`Database.update_task db oid
u` receives `u` itself), so normalization results never reach the
store. -/
theorem C4_update_forwards_raw_payload (db : DB) (tid : String)
    (u : UpdateData) (now : DateTime) (oid : String)
    (hid : parseObjectId tid = .ok oid)
    (hpr : ∀ p, u.priority = some p → ∃ v, validate_priority p = .ok v)
    (hst : ∀ s, u.status = some s → ∃ v, validate_status s = .ok v)
    (hdd : ∀ ds, u.due_date = some ds → ∃ d, parse_date ds true now = .ok d) :
    TaskManager.update_task db tid u now =
      .ok (Database.update_task db oid u) :=
  update_task_forwards_raw hid hpr hst hdd

/-- Witness for C4, amended: a lower-case `"high"` payload is
forwarded untouched. -/
theorem C4_update_forwards_raw_payload_witness :
    TaskManager.update_task dbA oidA
        ⟨none, none, none, some "high", none⟩ ⟨2024, 6, 15, 12, 0, 0⟩ =
      .ok (Database.update_task dbA (pyLower oidA)
        ⟨none, none, none, some "high", none⟩) :=
  C4_update_forwards_raw_payload dbA oidA
    ⟨none, none, none, some "high", none⟩ ⟨2024, 6, 15, 12, 0, 0⟩
    (pyLower oidA) (by decide)
    (fun p hp => by
      injection hp with hp
      subst hp
      exact ⟨"High", by decide⟩)
    (fun s hs => by cases hs)
    (fun ds hd => by cases hd)

/-- Claim C5, counterexample. The claim (following the spec's example list)
includes `"In   Progress"` — extra internal spaces — among the inputs that
normalize to `"In Progress"`. The code compares the stripped, lower-cased
input against the exact literal `"in progress"`; `"in   progress"` is not
that literal, falls through to capitalization (`"In   progress"`), is not
an allowed status, and is rejected with the allowed-values list. -/
theorem C5_internal_spaces_rejected :
    validate_status "In   Progress" =
      .error (.invalidEnum
        "Status must be one of: Pending, In Progress, Completed") := by
  decide

/-- Claim C5, amended. An input whose trimmed, lower-cased form is the
exact single-space literal `"in progress"` maps to the canonical
`"In Progress"`; every other input is capitalized and accepted iff the
result is `"Pending"` or `"Completed"` (capitalization can never produce
`"In Progress"` itself); `"done"` fails with the allowed-values list.
Inputs with extra internal spaces are rejected, not normalized. -/
theorem C5_status_normalization :
    (∀ s, pyLower (pyStrip s) = "in progress" →
      validate_status s = .ok "In Progress") ∧
    (∀ s v, pyLower (pyStrip s) ≠ "in progress" →
      (validate_status s = .ok v ↔
        (v = pyCapitalize (pyStrip s) ∧
          (v = "Pending" ∨ v = "Completed")))) ∧
    validate_status "done" =
      .error (.invalidEnum
        "Status must be one of: Pending, In Progress, Completed") := by
  refine ⟨?_, ?_, by decide⟩
  · intro s h
    simp only [validate_status]
    rw [if_pos h]
  · intro s v hne
    simp only [validate_status]
    rw [if_neg hne]
    have hX := pyCapitalize_ne_in_progress (pyStrip s)
    split
    · rename_i hmem
      simp only [STATUS_OPTIONS, List.mem_cons, List.not_mem_nil,
        or_false] at hmem
      constructor
      · intro hok
        injection hok with hok
        subst hok
        rcases hmem with h | h | h
        · exact ⟨rfl, Or.inl h⟩
        · exact absurd h hX
        · exact ⟨rfl, Or.inr h⟩
      · rintro ⟨rfl, h⟩
        rfl
    · rename_i hmem
      simp only [STATUS_OPTIONS, List.mem_cons, List.not_mem_nil,
        or_false] at hmem
      constructor
      · intro hok
        exact absurd hok (by simp)
      · rintro ⟨rfl, h⟩
        rcases h with h | h
        · exact absurd (Or.inl h) hmem
        · exact absurd (Or.inr (Or.inr h)) hmem

/-- Witness for C5, amended: the exact case-insensitive forms map to
`"In Progress"`; `"pending"` capitalizes into the accepted
`"Pending"`. -/
theorem C5_status_normalization_witness :
    validate_status "IN PROGRESS" = .ok "In Progress" ∧
    validate_status "in progress" = .ok "In Progress" ∧
    validate_status "pending" = .ok "Pending" :=
  ⟨C5_status_normalization.1 "IN PROGRESS" (by decide),
   C5_status_normalization.1 "in progress" (by decide),
   (C5_status_normalization.2.1 "pending" "Pending" (by decide)).mpr
     ⟨by decide, Or.inl rfl⟩⟩

/-- Claim C7, counterexample. The claim says no character of the title
filter value is interpreted as anything but itself. The value is
interpolated into the regex unescaped, so `.` acts as the any-character
operator: the filter `"a.c"` matches the stored title `"abc"`, which is
not equal to it even ignoring case. -/
theorem C7_metachar_interpreted :
    titleFilterMatches "a.c" "abc" = some true ∧
    pyLower "a.c" ≠ pyLower "abc" :=
  ⟨by simp [titleFilterMatches, parseRE, reMatch, charCI, pcreMeta],
   by decide⟩

/-- Claim C7, amended. For filter values containing no PCRE metacharacter
(none of `\` `^` `$` `.` `[` `]` `(` `)` `|` `*` `+` `?` or a brace), the
title filter is an exact, whole-string, case-insensitive match — never a
substring match. The raw value is interpolated into the pattern without
escaping, so any metacharacter occurring in the value keeps its regex
meaning; the model implements `.` and `*` (see the counterexample) and
declines the remaining operators rather than guess the engine's
reading. -/
theorem C7_title_filter_exact_without_metachars (filt stored : String)
    (h : ∀ c ∈ filt.data, c ∉ pcreMeta) :
    titleFilterMatches filt stored = some true ↔
      pyLower filt = pyLower stored := by
  unfold titleFilterMatches
  rw [parseRE_no_meta filt.data h]
  simp only [Option.map_some', Option.some.injEq]
  rw [reMatch_lits]
  unfold pyLower
  constructor
  · exact fun hm => congrArg String.mk hm
  · intro hm
    simpa using congrArg String.data hm

/-- Witness for C7, amended: whole-string case-insensitive matching on
metacharacter-free values — equal up to case matches, a proper prefix
does not. -/
theorem C7_title_filter_exact_witness :
    titleFilterMatches "Ship Report" "SHIP REPORT" = some true ∧
    titleFilterMatches "Ship" "Shipment" ≠ some true := by
  constructor
  · exact (C7_title_filter_exact_without_metachars "Ship Report"
      "SHIP REPORT" (by decide)).mpr (by decide)
  · intro hm
    have hq := (C7_title_filter_exact_without_metachars "Ship"
      "Shipment" (by decide)).mp hm
    exact absurd hq (by decide)

end TaskMgmt
